import Mathlib

/-!
Shallow embedding of `code.py` (repository `influenza_pachong`), an NCBI
influenza-sequence crawler.  The remote service (Entrez `esearch` /
`efetch`) is modelled by oracles giving the outcome of each attempt, and
every `time.sleep` call is recorded in a trace of requested delays.
Parsed GenBank records are modelled by the nested dict structure the code
reads (`GBSeq` / `GBFeature` / `GBQualifier`), with `Option` for keys the
code accesses through `dict.get`.
-/

/-- One parsed qualifier dict: the code reads the keys `GBQualifier_name`
and `GBQualifier_value` via `.get`, so either may be absent. -/
structure GBQualifier where
  name : Option String
  value : Option String
deriving DecidableEq, Repr

/-- One parsed feature dict: the code reads `GBFeature_key` (via `.get`)
and `GBFeature_quals` (via `.get(_, [])` at line 73 and a key-presence
test at line 85). -/
structure GBFeature where
  key : Option String
  quals : Option (List GBQualifier)
deriving DecidableEq, Repr

/-- One parsed record dict with the keys `fetch_sequence_data` reads:
`GBSeq_accession-version`, `GBSeq_sequence`, `GBSeq_feature-table`. -/
structure GBSeq where
  accessionVersion : Option String
  sequence : Option String
  featureTable : Option (List GBFeature)
deriving DecidableEq, Repr

/-- The `seq_data` dict built at lines 60-68.  The dict literal has exactly
these seven keys and every later assignment targets one of them, so the
key set is invariant; we model it as a structure plus the lookup function
`getItem` below. -/
structure SeqData where
  accession : String
  sequence : String
  strain : String
  host : String
  collection_date : String
  country : String
  virulence_info : String
deriving DecidableEq, Repr

/-- Python substring test `needle in hay`. -/
def strContains (hay needle : String) : Bool :=
  hay.data.tails.any (fun t => needle.data.isPrefixOf t)

/-- The keyword list of line 89. -/
def virulenceTerms : List String := ["virulen", "pathogenic", "pathogenicity"]

/-- Lines 74-81: the `elif` chain applied to one qualifier of a `source`
feature.  Each branch assigns unconditionally, so a later qualifier with
the same name overwrites an earlier one. -/
def applySourceQual (s : SeqData) (q : GBQualifier) : SeqData :=
  if q.name = some "strain" then { s with strain := q.value.getD "" }
  else if q.name = some "host" then { s with host := q.value.getD "" }
  else if q.name = some "country" then { s with country := q.value.getD "" }
  else if q.name = some "collection_date" then { s with collection_date := q.value.getD "" }
  else s

/-- Lines 71-81: the first pass over one feature; only features whose
`GBFeature_key` equals `source` contribute. -/
def applySourceFeature (s : SeqData) (f : GBFeature) : SeqData :=
  if f.key = some "source" then (f.quals.getD []).foldl applySourceQual s else s

/-- Lines 87-90: the virulence scan applied to one qualifier: a qualifier
named `note` or `comment` whose lowercased value contains one of the
keywords overwrites `virulence_info` with the original-case value. -/
def applyVirulenceQual (s : SeqData) (q : GBQualifier) : SeqData :=
  if q.name = some "note" ∨ q.name = some "comment" then
    let value := (q.value.getD "").toLower
    if virulenceTerms.any (fun term => strContains value term) then
      { s with virulence_info := q.value.getD "" }
    else s
  else s

/-- Lines 84-90: the virulence pass over one feature (all features, not
only `source`). -/
def applyVirulenceFeature (s : SeqData) (f : GBFeature) : SeqData :=
  (f.quals.getD []).foldl applyVirulenceQual s

/-- Lines 59-92: extraction of one parsed record into a `seq_data` dict. -/
def extractRecord (record : GBSeq) : SeqData :=
  let seq0 : SeqData :=
    { accession := record.accessionVersion.getD ""
      sequence := record.sequence.getD ""
      strain := ""
      host := ""
      collection_date := ""
      country := ""
      virulence_info := "" }
  let seq1 := (record.featureTable.getD []).foldl applySourceFeature seq0
  (record.featureTable.getD []).foldl applyVirulenceFeature seq1

/-- Outcome of one `esearch` attempt (the try block at lines 31-35):
the id list of a successful call, a transient network error
(`urllib.error.URLError` / `http.client.HTTPException`), or any other
exception. -/
inductive SearchOutcome where
  | success (ids : List String)
  | transient
  | failure
deriving DecidableEq, Repr

/-- Lines 30-43: the retry loop of `search_ncbi_flu`, with the remaining
iterations of `range(3)` as fuel.  Returns the id list together with the
trace of `time.sleep` arguments.  A transient error sleeps `2 ** attempt`
and retries; any other exception returns `[]` at once; exhausting the
loop returns `[]`. -/
def searchGo (oracle : Nat → SearchOutcome) : Nat → Nat → List String × List Nat
  | _, 0 => ([], [])
  | attempt, rem + 1 =>
    match oracle attempt with
    | .success ids => (ids, [])
    | .transient =>
      let rest := searchGo oracle (attempt + 1) rem
      (rest.1, 2 ^ attempt :: rest.2)
    | .failure => ([], [])

/-- Lines 22-43: `search_ncbi_flu` (the query string only travels to the
remote side, so it is absorbed into the oracle). -/
def search_ncbi_flu (oracle : Nat → SearchOutcome) : List String × List Nat :=
  searchGo oracle 0 3

/-- Outcome of one `efetch`-and-parse attempt for one batch (lines 56-94):
either the attempt completes with the records parsed from the response, or
an exception is raised after `pre` records were already parsed.
`Entrez.parse` is a generator and line 92 appends inside the `try`, so the
records parsed before the exception stay appended. -/
inductive FetchOutcome where
  | success (recs : List GBSeq)
  | failAfter (pre : List GBSeq)
deriving DecidableEq, Repr

/-- Observable result of (part of) `fetch_sequence_data`: the `sequences`
list, the trace of `time.sleep` arguments, and the number of `efetch`
calls issued. -/
structure FetchResult where
  records : List SeqData
  sleeps : List Nat
  requests : Nat
deriving DecidableEq, Repr

/-- Lines 54-104: the per-batch retry loop (fuel = remaining iterations of
`range(3)`).  Returns the records appended, the `time.sleep` trace (the
courtesy sleep of line 96 on success, `2 ** attempt` of line 100 on
failure) and the number of `efetch` calls.  Exhausting the fuel is the
`for`-`else` branch of lines 102-104: the batch is skipped. -/
def fetchBatchGo (orc : Nat → FetchOutcome) : Nat → Nat → FetchResult
  | _, 0 => { records := [], sleeps := [], requests := 0 }
  | attempt, rem + 1 =>
    match orc attempt with
    | .success recs => { records := recs.map extractRecord, sleeps := [1], requests := 1 }
    | .failAfter pre =>
      let rest := fetchBatchGo orc (attempt + 1) rem
      { records := pre.map extractRecord ++ rest.records
        sleeps := 2 ^ attempt :: rest.sleeps
        requests := 1 + rest.requests }

/-- The three attempts for one batch. -/
def fetchBatch (orc : Nat → FetchOutcome) : FetchResult :=
  fetchBatchGo orc 0 3

/-- Line 50. -/
def batch_size : Nat := 50

/-- Lines 52-104: the loop `for i in range(0, len(id_list), batch_size)`.
The oracle maps a batch index (`i // batch_size`) and an attempt number to
the server behaviour for that attempt. -/
def fetchFrom (oracle : Nat → Nat → FetchOutcome) (id_list : List String) (i : Nat) :
    FetchResult :=
  if h : i < id_list.length then
    { records := (fetchBatch (oracle (i / batch_size))).records ++
        (fetchFrom oracle id_list (i + batch_size)).records
      sleeps := (fetchBatch (oracle (i / batch_size))).sleeps ++
        (fetchFrom oracle id_list (i + batch_size)).sleeps
      requests := (fetchBatch (oracle (i / batch_size))).requests +
        (fetchFrom oracle id_list (i + batch_size)).requests }
  else { records := [], sleeps := [], requests := 0 }
termination_by id_list.length - i
decreasing_by all_goals (simp only [batch_size]; omega)

/-- Lines 45-106: `fetch_sequence_data`. -/
def fetch_sequence_data (oracle : Nat → Nat → FetchOutcome) (id_list : List String) :
    FetchResult :=
  fetchFrom oracle id_list 0

/-- Python subscript `seq[k]` on the `seq_data` dict (whose key set is
exactly the seven literal keys): a missing key raises `KeyError(k)`,
modelled as `Except.error k`. -/
def getItem (s : SeqData) (k : String) : Except String String :=
  if k = "accession" then .ok s.accession
  else if k = "sequence" then .ok s.sequence
  else if k = "strain" then .ok s.strain
  else if k = "host" then .ok s.host
  else if k = "collection_date" then .ok s.collection_date
  else if k = "country" then .ok s.country
  else if k = "virulence_info" then .ok s.virulence_info
  else .error k

/-- Lines 151-152: the two lines written for one record.  The f-string of
line 151 evaluates `seq['accession']`, `seq['strain']`, `seq[' host']`,
`seq['collection_date']` in order before anything is written, so a
`KeyError` aborts with no output for this record. -/
def fastaLines (s : SeqData) : Except String (List String) := do
  let acc ← getItem s "accession"
  let strain ← getItem s "strain"
  let host ← getItem s " host"
  let cdate ← getItem s "collection_date"
  let sq ← getItem s "sequence"
  pure [">" ++ acc ++ "|" ++ strain ++ "|" ++ host ++ "|" ++ cdate, sq]

/-- Lines 149-153: write `flu_sequences.fasta`; the result is the list of
lines written, or the key of the first uncaught `KeyError`. -/
def writeFasta : List SeqData → Except String (List String)
  | [] => .ok []
  | s :: rest => do
    let l ← fastaLines s
    let r ← writeFasta rest
    pure (l ++ r)

/-- Lines 156-162: the third artifact.  The frame is built from the
`accession` and `virulence_info` columns of all records, then filtered to
the rows whose text has positive length. -/
def virulenceRows (sequences : List SeqData) : List (String × String) :=
  (sequences.map (fun s => (s.accession, s.virulence_info))).filter
    (fun r => decide (0 < r.2.length))

/-- Result of one run of `main`: normal completion, or an uncaught
exception (carrying the offending dict key) reaching the top level. -/
inductive MainResult where
  | completed
  | uncaught (key : String)
deriving DecidableEq, Repr

/-- Lines 124-165: `main`.  `main` installs no exception handler; the CSV
writes are modelled as always succeeding (they only serialize), so the
only modelled exception source is the dict subscripts of line 151. -/
def runMain (sOracle : Nat → SearchOutcome) (fOracle : Nat → Nat → FetchOutcome) :
    MainResult :=
  let id_list := (search_ncbi_flu sOracle).1
  if id_list = [] then .completed
  else
    let sequences := (fetch_sequence_data fOracle id_list).records
    if sequences = [] then .completed
    else
      match writeFasta sequences with
      | .ok _ => .completed
      | .error k => .uncaught k

/-- Qualifiers one feature contributes to the first (source) pass. -/
def sourceItems (f : GBFeature) : List GBQualifier :=
  if f.key = some "source" then f.quals.getD [] else []

/-- Specification-side view for the source-feature fields: the values
(defaulting to `""` as in `GBQualifier_value` lookup) of the qualifiers
named `name` inside features of key `source`, in traversal order. -/
def sourceQualValues (record : GBSeq) (name : String) : List String :=
  (((record.featureTable.getD []).flatMap sourceItems).filter
    (fun q => decide (q.name = some name))).map (fun q => q.value.getD "")

/-- Specification-side predicate for the virulence scan: qualifier named
`note` or `comment` whose lowercased value contains one of the keywords. -/
def virulenceQualMatch (q : GBQualifier) : Bool :=
  decide (q.name = some "note" ∨ q.name = some "comment") &&
    virulenceTerms.any (fun term => strContains ((q.value.getD "").toLower) term)

/-- Specification-side view for the virulence scan: the original-case
values of all matching qualifiers over all features, in traversal order. -/
def virulenceMatchValues (record : GBSeq) : List String :=
  (((record.featureTable.getD []).flatMap (fun f => f.quals.getD [])).filter
    virulenceQualMatch).map (fun q => q.value.getD "")

/-- Specification-side view of the batching: the consecutive slices
`id_list[i:i+batch_size]`. -/
def batchesOf (l : List String) : List (List String) :=
  if h : l = [] then [] else l.take batch_size :: batchesOf (l.drop batch_size)
termination_by l.length
decreasing_by
  simp only [List.length_drop, batch_size]
  have h2 := List.length_pos.mpr h
  omega

/-- Oracle where every search attempt hits a transient network error. -/
def allTransient : Nat → SearchOutcome := fun _ => .transient

/-- Fetch oracle where every attempt of every batch raises before parsing
any record. -/
def allFailFetch : Nat → Nat → FetchOutcome := fun _ _ => .failAfter []

/-- A record whose dict has none of the read keys. -/
def recN : GBSeq := { accessionVersion := none, sequence := none, featureTable := none }

/-- Fetch oracle where, for every batch, attempt 0 raises after one record
was parsed and appended, and the retry succeeds with the same one-record
response. -/
def dupOracle : Nat → Nat → FetchOutcome := fun _ a =>
  if a = 0 then .failAfter [recN] else .success [recN]

/-- Fetch oracle where every attempt raises after one parsed record. -/
def cFailOracle : Nat → Nat → FetchOutcome := fun _ _ => .failAfter [recN]

/-- Record with one `source` feature holding two `strain` qualifiers. -/
def cRec1 : GBSeq :=
  { accessionVersion := none
    sequence := none
    featureTable := some [
      { key := some "source"
        quals := some [
          { name := some "strain", value := some "A" },
          { name := some "strain", value := some "B" } ] } ] }

/-- Search oracle returning one id at the first attempt. -/
def sOracle2 : Nat → SearchOutcome := fun _ => .success ["id1"]

/-- Fetch oracle returning one record at the first attempt of each batch. -/
def fOracle2 : Nat → Nat → FetchOutcome := fun _ _ => .success [recN]

/-- A fully populated extracted record. -/
def rec3 : SeqData :=
  { accession := "AB000001.1"
    sequence := "acgt"
    strain := "H5N1-X"
    host := "chicken"
    collection_date := "2020"
    country := "China"
    virulence_info := "" }

/-- Record with a non-empty virulence text, for the filter theorem. -/
def rA9 : SeqData :=
  { accession := "A1", sequence := "ac", strain := "", host := ""
    collection_date := "", country := "", virulence_info := "highly virulent" }

/-- Record with an empty virulence text, for the filter theorem. -/
def rB9 : SeqData :=
  { accession := "B2", sequence := "gt", strain := "", host := ""
    collection_date := "", country := "", virulence_info := "" }

/-- Fetch oracle for the C4 witness: every attempt of every batch succeeds
with an empty response. -/
def emptyOracle : Nat → Nat → FetchOutcome := fun _ _ => .success []

/-! ### Helper lemmas -/

lemma getLastD_append (xs ys : List String) (d : String) :
    (xs ++ ys).getLastD d = ys.getLastD (xs.getLastD d) := by
  induction xs generalizing d with
  | nil => rfl
  | cons x xs ih => rw [List.cons_append, List.getLastD_cons, List.getLastD_cons, ih]

/-- Folding an update function that either writes `val a` into the tracked
field (when `p a` holds) or leaves it unchanged yields the last written
value, the initial field value acting as default. -/
lemma foldl_track {α : Type} (f : SeqData → α → SeqData) (get : SeqData → String)
    (p : α → Bool) (val : α → String)
    (hupd : ∀ s a, get (f s a) = if p a then val a else get s) :
    ∀ (l : List α) (s : SeqData),
      get (l.foldl f s) = ((l.filter p).map val).getLastD (get s) := by
  intro l
  induction l with
  | nil => intro s; rfl
  | cons a l ih =>
    intro s
    rw [List.foldl_cons, ih, hupd, List.filter_cons]
    by_cases hp : p a = true
    · have hcond : (if p a = true then val a else get s) = val a := if_pos hp
      rw [hcond, if_pos hp, List.map_cons, List.getLastD_cons]
    · rw [if_neg hp, if_neg hp]

/-- Same as `foldl_track` one level up: folding over containers whose
items are given by `items`. -/
lemma foldl_track_nested {β : Type} (g : SeqData → β → SeqData) (get : SeqData → String)
    (items : β → List GBQualifier) (p : GBQualifier → Bool) (val : GBQualifier → String)
    (hupd : ∀ s b, get (g s b) = (((items b).filter p).map val).getLastD (get s)) :
    ∀ (l : List β) (s : SeqData),
      get (l.foldl g s) = (((l.flatMap items).filter p).map val).getLastD (get s) := by
  intro l
  induction l with
  | nil => intro s; rfl
  | cons b l ih =>
    intro s
    rw [List.foldl_cons, ih, hupd, List.flatMap_cons, List.filter_append, List.map_append,
      getLastD_append]

/-- Folding an update function that never writes the tracked field leaves
it unchanged. -/
lemma foldl_track_const {α : Type} (f : SeqData → α → SeqData) (get : SeqData → String)
    (hupd : ∀ s a, get (f s a) = get s) :
    ∀ (l : List α) (s : SeqData), get (l.foldl f s) = get s := by
  intro l
  induction l with
  | nil => intro s; rfl
  | cons a l ih => intro s; rw [List.foldl_cons, ih, hupd]

lemma applySourceQual_strain (s : SeqData) (q : GBQualifier) :
    (applySourceQual s q).strain =
      if decide (q.name = some "strain") then q.value.getD "" else s.strain := by
  simp only [applySourceQual]
  split_ifs with h1 h2 h3 h4 <;> simp_all

lemma applySourceQual_host (s : SeqData) (q : GBQualifier) :
    (applySourceQual s q).host =
      if decide (q.name = some "host") then q.value.getD "" else s.host := by
  simp only [applySourceQual]
  split_ifs with h1 h2 h3 h4 <;> simp_all

lemma applySourceQual_country (s : SeqData) (q : GBQualifier) :
    (applySourceQual s q).country =
      if decide (q.name = some "country") then q.value.getD "" else s.country := by
  simp only [applySourceQual]
  split_ifs with h1 h2 h3 h4 <;> simp_all

lemma applySourceQual_cdate (s : SeqData) (q : GBQualifier) :
    (applySourceQual s q).collection_date =
      if decide (q.name = some "collection_date") then q.value.getD ""
      else s.collection_date := by
  simp only [applySourceQual]
  split_ifs with h1 h2 h3 h4 <;> simp_all

lemma applySourceQual_vinfo (s : SeqData) (q : GBQualifier) :
    (applySourceQual s q).virulence_info = s.virulence_info := by
  simp only [applySourceQual]
  split_ifs <;> rfl

lemma applyVirulenceQual_vinfo (s : SeqData) (q : GBQualifier) :
    (applyVirulenceQual s q).virulence_info =
      if virulenceQualMatch q then q.value.getD "" else s.virulence_info := by
  by_cases h1 : q.name = some "note" ∨ q.name = some "comment"
  · by_cases h2 : virulenceTerms.any
        (fun term => strContains ((q.value.getD "").toLower) term) = true
    · simp [applyVirulenceQual, virulenceQualMatch, h1, h2]
    · simp [applyVirulenceQual, virulenceQualMatch, h1, h2]
  · simp [applyVirulenceQual, virulenceQualMatch, h1]

lemma applyVirulenceQual_strain (s : SeqData) (q : GBQualifier) :
    (applyVirulenceQual s q).strain = s.strain := by
  simp only [applyVirulenceQual]
  split_ifs <;> rfl

lemma applyVirulenceQual_host (s : SeqData) (q : GBQualifier) :
    (applyVirulenceQual s q).host = s.host := by
  simp only [applyVirulenceQual]
  split_ifs <;> rfl

lemma applyVirulenceQual_country (s : SeqData) (q : GBQualifier) :
    (applyVirulenceQual s q).country = s.country := by
  simp only [applyVirulenceQual]
  split_ifs <;> rfl

lemma applyVirulenceQual_cdate (s : SeqData) (q : GBQualifier) :
    (applyVirulenceQual s q).collection_date = s.collection_date := by
  simp only [applyVirulenceQual]
  split_ifs <;> rfl

lemma applySourceFeature_track (get : SeqData → String) (p : GBQualifier → Bool)
    (val : GBQualifier → String)
    (hupd : ∀ s q, get (applySourceQual s q) = if p q then val q else get s)
    (s : SeqData) (f : GBFeature) :
    get (applySourceFeature s f) =
      (((sourceItems f).filter p).map val).getLastD (get s) := by
  by_cases hf : f.key = some "source"
  · rw [applySourceFeature, if_pos hf, sourceItems, if_pos hf]
    exact foldl_track applySourceQual get p val hupd _ s
  · rw [applySourceFeature, if_neg hf, sourceItems, if_neg hf]
    rfl

lemma applyVirulenceFeature_vinfo (s : SeqData) (f : GBFeature) :
    (applyVirulenceFeature s f).virulence_info =
      (((f.quals.getD []).filter virulenceQualMatch).map
        (fun q => q.value.getD "")).getLastD s.virulence_info := by
  rw [applyVirulenceFeature]
  exact foldl_track applyVirulenceQual (fun s => s.virulence_info) virulenceQualMatch
    (fun q => q.value.getD "") applyVirulenceQual_vinfo _ s

lemma applySourceFeature_vinfo (s : SeqData) (f : GBFeature) :
    (applySourceFeature s f).virulence_info = s.virulence_info := by
  by_cases hf : f.key = some "source"
  · rw [applySourceFeature, if_pos hf]
    exact foldl_track_const applySourceQual (fun s => s.virulence_info)
      applySourceQual_vinfo _ s
  · rw [applySourceFeature, if_neg hf]

lemma applyVirulenceFeature_strain (s : SeqData) (f : GBFeature) :
    (applyVirulenceFeature s f).strain = s.strain := by
  rw [applyVirulenceFeature]
  exact foldl_track_const applyVirulenceQual (fun s => s.strain)
    applyVirulenceQual_strain _ s

lemma applyVirulenceFeature_host (s : SeqData) (f : GBFeature) :
    (applyVirulenceFeature s f).host = s.host := by
  rw [applyVirulenceFeature]
  exact foldl_track_const applyVirulenceQual (fun s => s.host)
    applyVirulenceQual_host _ s

lemma applyVirulenceFeature_country (s : SeqData) (f : GBFeature) :
    (applyVirulenceFeature s f).country = s.country := by
  rw [applyVirulenceFeature]
  exact foldl_track_const applyVirulenceQual (fun s => s.country)
    applyVirulenceQual_country _ s

lemma applyVirulenceFeature_cdate (s : SeqData) (f : GBFeature) :
    (applyVirulenceFeature s f).collection_date = s.collection_date := by
  rw [applyVirulenceFeature]
  exact foldl_track_const applyVirulenceQual (fun s => s.collection_date)
    applyVirulenceQual_cdate _ s

lemma extract_strain (record : GBSeq) :
    (extractRecord record).strain = (sourceQualValues record "strain").getLastD "" := by
  simp only [extractRecord]
  rw [foldl_track_const applyVirulenceFeature (fun s => s.strain) applyVirulenceFeature_strain]
  rw [foldl_track_nested applySourceFeature (fun s => s.strain) sourceItems _ _
    (applySourceFeature_track _ _ _ applySourceQual_strain)]
  rfl

lemma extract_host (record : GBSeq) :
    (extractRecord record).host = (sourceQualValues record "host").getLastD "" := by
  simp only [extractRecord]
  rw [foldl_track_const applyVirulenceFeature (fun s => s.host) applyVirulenceFeature_host]
  rw [foldl_track_nested applySourceFeature (fun s => s.host) sourceItems _ _
    (applySourceFeature_track _ _ _ applySourceQual_host)]
  rfl

lemma extract_country (record : GBSeq) :
    (extractRecord record).country = (sourceQualValues record "country").getLastD "" := by
  simp only [extractRecord]
  rw [foldl_track_const applyVirulenceFeature (fun s => s.country) applyVirulenceFeature_country]
  rw [foldl_track_nested applySourceFeature (fun s => s.country) sourceItems _ _
    (applySourceFeature_track _ _ _ applySourceQual_country)]
  rfl

lemma extract_cdate (record : GBSeq) :
    (extractRecord record).collection_date =
      (sourceQualValues record "collection_date").getLastD "" := by
  simp only [extractRecord]
  rw [foldl_track_const applyVirulenceFeature (fun s => s.collection_date)
    applyVirulenceFeature_cdate]
  rw [foldl_track_nested applySourceFeature (fun s => s.collection_date) sourceItems _ _
    (applySourceFeature_track _ _ _ applySourceQual_cdate)]
  rfl

lemma extract_vinfo (record : GBSeq) :
    (extractRecord record).virulence_info = (virulenceMatchValues record).getLastD "" := by
  simp only [extractRecord]
  rw [foldl_track_nested applyVirulenceFeature (fun s => s.virulence_info)
    (fun f => f.quals.getD []) virulenceQualMatch (fun q => q.value.getD "")
    (fun s f => applyVirulenceFeature_vinfo s f)]
  rw [foldl_track_const applySourceFeature (fun s => s.virulence_info) applySourceFeature_vinfo]
  rfl

lemma string_length_pos (s : String) : 0 < s.length ↔ s ≠ "" := by
  cases s with
  | mk data =>
    cases data with
    | nil => simp [String.length]
    | cons c cs =>
      constructor
      · intro _ h
        have h2 : (c :: cs : List Char) = ([] : List Char) := congrArg String.data h
        cases h2
      · intro _
        simp [String.length]

/-! ### Claim theorems -/

/-- C1, counterexample: in `cRec1` the first `strain` qualifier of the
`source` feature has value `A`, but the extracted strain is `B` — the
later occurrence overwrote the earlier one, contradicting the claim that
the first occurrence wins. -/
theorem C1_counterexample :
    (sourceQualValues cRec1 "strain").head? = some "A"
  ∧ (extractRecord cRec1).strain = "B"
  ∧ ("B" : String) ≠ "A" :=
  ⟨rfl, rfl, by decide⟩

/-- C1 (amended): each of the four source-feature fields of an extracted
record equals the value of the LAST qualifier with that name (in source
order, across all `source` features), defaulting to `""` when there is
none; later occurrences overwrite earlier ones. -/
theorem C1_last_source_qualifier_wins (record : GBSeq) :
    (extractRecord record).strain = (sourceQualValues record "strain").getLastD ""
  ∧ (extractRecord record).host = (sourceQualValues record "host").getLastD ""
  ∧ (extractRecord record).country = (sourceQualValues record "country").getLastD ""
  ∧ (extractRecord record).collection_date =
      (sourceQualValues record "collection_date").getLastD "" :=
  ⟨extract_strain record, extract_host record, extract_country record, extract_cdate record⟩

/-- C5: `virulence_info` equals the original-case value of the last
qualifier, in feature/qualifier traversal order over all features, named
`note` or `comment` whose value case-insensitively contains one of the
virulence keywords; `""` when no qualifier matches. -/
theorem C5_virulence_last_match (record : GBSeq) :
    (extractRecord record).virulence_info = (virulenceMatchValues record).getLastD "" :=
  extract_vinfo record

/-- C3, counterexample: on a fully populated record (host `chicken`), the
FASTA write raises `KeyError(' host')` instead of writing a header with a
silently empty host field. -/
theorem C3_counterexample : writeFasta [rec3] = Except.error " host" := rfl

/-- C3 (amended): for every non-empty record list the sequence-format
output fails at the first record with a `KeyError` on the key `' host'`
(the stray leading space never matches the actual key `'host'`); no
header line is ever produced. -/
theorem C3_fasta_write_raises (s : SeqData) (rest : List SeqData) :
    writeFasta (s :: rest) = Except.error " host" := rfl

/-- C9: a `(sequence_id, virulence text)` row for a record appears in the
third artifact if and only if that record's `virulence_info` is a
non-empty string. -/
theorem C9_virulence_filter (sequences : List SeqData) (r : SeqData) (hr : r ∈ sequences) :
    (r.accession, r.virulence_info) ∈ virulenceRows sequences ↔ r.virulence_info ≠ "" := by
  rw [virulenceRows]
  constructor
  · intro hmem
    have h2 := (List.mem_filter.mp hmem).2
    simp only [decide_eq_true_eq] at h2
    exact (string_length_pos _).mp h2
  · intro hne
    refine List.mem_filter.mpr ⟨List.mem_map.mpr ⟨r, hr, rfl⟩, ?_⟩
    simp only [decide_eq_true_eq]
    exact (string_length_pos _).mpr hne

/-- C9, witness: evaluated on a two-record list with one matching record. -/
theorem C9_witness :
    ((rA9.accession, rA9.virulence_info) ∈ virulenceRows [rA9, rB9] ↔
      rA9.virulence_info ≠ "") :=
  C9_virulence_filter [rA9, rB9] rA9 (List.mem_cons_self rA9 [rB9])

/-- C10: on an empty identifier list, `fetch_sequence_data` returns no
records, requests no delay, and issues no `efetch` call. -/
theorem C10_empty_ids (oracle : Nat → Nat → FetchOutcome) :
    fetch_sequence_data oracle [] = { records := [], sleeps := [], requests := 0 } := by
  show fetchFrom oracle [] 0 = { records := [], sleeps := [], requests := 0 }
  rw [fetchFrom.eq_def]
  simp

/-- C7: the search consults at most the first 3 attempts; an immediate
success returns its ids with no sleep; a non-transient exception returns
`[]` at once with no sleep; a transient failure retries with backoff (one
failure then success: trace `[1]`); and three transient failures return
`[]` with trace `[1, 2, 4]`. -/
theorem C7_search_retry_policy (oracle : Nat → SearchOutcome) :
    (∀ oracle2, (∀ k, k < 3 → oracle k = oracle2 k) →
        search_ncbi_flu oracle = search_ncbi_flu oracle2)
  ∧ (∀ ids, oracle 0 = SearchOutcome.success ids → search_ncbi_flu oracle = (ids, []))
  ∧ (oracle 0 = SearchOutcome.failure → search_ncbi_flu oracle = ([], []))
  ∧ (∀ ids, oracle 0 = SearchOutcome.transient → oracle 1 = SearchOutcome.success ids →
        search_ncbi_flu oracle = (ids, [1]))
  ∧ ((∀ k, k < 3 → oracle k = SearchOutcome.transient) →
        search_ncbi_flu oracle = ([], [1, 2, 4])) := by
  refine ⟨?_, ?_, ?_, ?_, ?_⟩
  · intro oracle2 h
    have h0 := h 0 (by omega)
    have h1 := h 1 (by omega)
    have h2 := h 2 (by omega)
    simp only [search_ncbi_flu, searchGo]
    rw [← h0, ← h1, ← h2]
  · intro ids h0
    simp [search_ncbi_flu, searchGo, h0]
  · intro h0
    simp [search_ncbi_flu, searchGo, h0]
  · intro ids h0 h1
    simp [search_ncbi_flu, searchGo, h0, h1]
  · intro h
    have h0 := h 0 (by omega)
    have h1 := h 1 (by omega)
    have h2 := h 2 (by omega)
    simp [search_ncbi_flu, searchGo, h0, h1, h2]

/-- C7, witness: the all-transient oracle exhausts the 3 attempts and
returns the empty list with backoff trace `[1, 2, 4]`. -/
theorem C7_witness : search_ncbi_flu allTransient = ([], [1, 2, 4]) :=
  (C7_search_retry_policy allTransient).2.2.2.2 (fun _ _ => rfl)

lemma fetch_allFail_one_batch :
    fetch_sequence_data allFailFetch ["id1"] =
      { records := [], sleeps := [1, 2, 4], requests := 3 } := by
  show fetchFrom allFailFetch ["id1"] 0 = _
  rw [fetchFrom.eq_def]
  norm_num
  rw [fetchFrom.eq_def]
  simp [batch_size, fetchBatch, fetchBatchGo, allFailFetch]

/-- C8: at both retry sites the backoff delays over the 3 attempts are
`2 ^ 0, 2 ^ 1, 2 ^ 2 = 1, 2, 4`, a worst-case total wait of 7 units before
the operation is abandoned: shown on the search trace with an
all-transient oracle and on a one-batch fetch whose attempts all fail. -/
theorem C8_backoff_trace :
    (search_ncbi_flu allTransient).2 = [2 ^ 0, 2 ^ 1, 2 ^ 2]
  ∧ (search_ncbi_flu allTransient).2.sum = 7
  ∧ (fetch_sequence_data allFailFetch ["id1"]).sleeps = [2 ^ 0, 2 ^ 1, 2 ^ 2]
  ∧ (fetch_sequence_data allFailFetch ["id1"]).sleeps.sum = 7 := by
  refine ⟨rfl, rfl, ?_, ?_⟩
  · rw [fetch_allFail_one_batch]
    rfl
  · rw [fetch_allFail_one_batch]
    rfl

lemma fetch_one_success :
    fetch_sequence_data fOracle2 ["id1"] =
      { records := [extractRecord recN], sleeps := [1], requests := 1 } := by
  show fetchFrom fOracle2 ["id1"] 0 = _
  rw [fetchFrom.eq_def]
  norm_num
  rw [fetchFrom.eq_def]
  simp [batch_size, fetchBatch, fetchBatchGo, fOracle2]

/-- C2, theorem at the failing input: with a search returning one id and a
fetch yielding one record, `main` ends with an uncaught `KeyError(' host')`
raised while writing the FASTA file, instead of completing. -/
theorem C2_uncaught_keyerror : runMain sOracle2 fOracle2 = MainResult.uncaught " host" := by
  have hs : search_ncbi_flu sOracle2 = (["id1"], []) := by
    simp [search_ncbi_flu, searchGo, sOracle2]
  simp [runMain, hs, fetch_one_success]
  rfl

lemma fetchBatchGo_records_le (orc : Nat → FetchOutcome) (m : Nat)
    (hatomic : ∀ a pre, orc a = FetchOutcome.failAfter pre → pre = [])
    (hserver : ∀ a recs, orc a = FetchOutcome.success recs → recs.length ≤ m) :
    ∀ rem attempt, (fetchBatchGo orc attempt rem).records.length ≤ m := by
  intro rem
  induction rem with
  | zero => intro attempt; exact Nat.zero_le m
  | succ rem ih =>
    intro attempt
    cases h : orc attempt with
    | success recs =>
      simp only [fetchBatchGo, h, List.length_map]
      exact hserver attempt recs h
    | failAfter pre =>
      have hpre := hatomic attempt pre h
      simp only [fetchBatchGo, h, hpre, List.map_nil, List.nil_append]
      exact ih (attempt + 1)

lemma fetchFrom_records_le (oracle : Nat → Nat → FetchOutcome) (ids : List String)
    (hatomic : ∀ b a pre, oracle b a = FetchOutcome.failAfter pre → pre = [])
    (hserver : ∀ b a recs, oracle b a = FetchOutcome.success recs →
        recs.length ≤ ((ids.drop (batch_size * b)).take batch_size).length) :
    ∀ n b, ids.length - batch_size * b ≤ n →
      (fetchFrom oracle ids (batch_size * b)).records.length ≤
        ids.length - batch_size * b := by
  have hbs : 0 < batch_size := by simp [batch_size]
  intro n
  induction n with
  | zero =>
    intro b hb
    rw [fetchFrom.eq_def, dif_neg (by omega)]
    simp
  | succ n ih =>
    intro b hb
    rw [fetchFrom.eq_def]
    by_cases hcond : batch_size * b < ids.length
    · rw [dif_pos hcond]
      have hdiv : batch_size * b / batch_size = b := Nat.mul_div_cancel_left b hbs
      have hbatch : (fetchBatch (oracle b)).records.length ≤
          ((ids.drop (batch_size * b)).take batch_size).length :=
        fetchBatchGo_records_le (oracle b) _ (hatomic b) (hserver b) 3 0
      have hmul : batch_size * (b + 1) = batch_size * b + batch_size := by ring
      have hnext : (fetchFrom oracle ids (batch_size * b + batch_size)).records.length ≤
          ids.length - (batch_size * b + batch_size) := by
        have h2 := ih (b + 1) (by omega)
        rw [hmul] at h2
        exact h2
      have htake : ((ids.drop (batch_size * b)).take batch_size).length ≤ batch_size :=
        List.length_take_le _ _
      have htake2 : ((ids.drop (batch_size * b)).take batch_size).length ≤
          ids.length - batch_size * b := by
        have h3 : (ids.drop (batch_size * b)).length = ids.length - batch_size * b :=
          List.length_drop _ _
        rw [List.length_take, h3]
        omega
      simp only [List.length_append, hdiv]
      omega
    · rw [dif_neg hcond]
      simp

/-- C4 (amended): the number of extracted records is at most the number of
requested identifiers, provided every failed batch attempt raises before
parsing any record (atomic failure) and every successful response holds at
most one record per requested identifier of its batch.  (Without the
atomicity proviso the bound fails: an attempt that parses records and then
raises leaves them appended, and the retry appends the batch again — see
the counterexample.) -/
theorem C4_records_le_ids (oracle : Nat → Nat → FetchOutcome) (ids : List String)
    (hatomic : ∀ b a pre, oracle b a = FetchOutcome.failAfter pre → pre = [])
    (hserver : ∀ b a recs, oracle b a = FetchOutcome.success recs →
        recs.length ≤ ((ids.drop (batch_size * b)).take batch_size).length) :
    (fetch_sequence_data oracle ids).records.length ≤ ids.length := by
  have h := fetchFrom_records_le oracle ids hatomic hserver ids.length 0 (by omega)
  simpa [fetch_sequence_data] using h

/-- C4, witness: the bound applied to a one-identifier run whose single
batch succeeds with an empty response. -/
theorem C4_witness :
    (fetch_sequence_data emptyOracle ["id1"]).records.length ≤
      (["id1"] : List String).length :=
  C4_records_le_ids emptyOracle ["id1"]
    (by intro b a pre h; simp [emptyOracle] at h)
    (by intro b a recs h; simp [emptyOracle] at h; simp [h])

/-- C4, counterexample: one identifier, one batch; attempt 0 parses one
record and then raises, the retry succeeds with the same one-record
response (both responses within the batch size), and the run emits 2
records for 1 identifier — the claimed bound fails exactly in the
partial-failure-then-retry case the claim includes. -/
theorem C4_counterexample :
    ¬ ((fetch_sequence_data dupOracle ["id1"]).records.length ≤
        (["id1"] : List String).length) := by
  have hf : (fetch_sequence_data dupOracle ["id1"]).records.length = 2 := by
    show (fetchFrom dupOracle ["id1"] 0).records.length = 2
    rw [fetchFrom.eq_def]
    norm_num
    rw [fetchFrom.eq_def]
    simp [batch_size, fetchBatch, fetchBatchGo, dupOracle]
  rw [hf]
  decide

lemma batchesOf_flatten : ∀ (n : Nat) (l : List String), l.length ≤ n →
    (batchesOf l).flatten = l := by
  intro n
  induction n with
  | zero =>
    intro l hl
    have hl0 : l = [] := List.length_eq_zero.mp (Nat.le_zero.mp hl)
    subst hl0
    rw [batchesOf.eq_def]
    simp
  | succ n ih =>
    intro l hl
    by_cases hl0 : l = []
    · subst hl0
      rw [batchesOf.eq_def]
      simp
    · have hpos : 0 < l.length := List.length_pos.mpr hl0
      have hbs : 0 < batch_size := by simp [batch_size]
      rw [batchesOf.eq_def, dif_neg hl0, List.flatten_cons,
        ih (l.drop batch_size) (by rw [List.length_drop]; omega)]
      exact List.take_append_drop batch_size l

lemma batchesOf_sizes : ∀ (n : Nat) (l : List String), l.length ≤ n →
    ∀ c ∈ batchesOf l, c.length ≤ batch_size := by
  intro n
  induction n with
  | zero =>
    intro l hl c hc
    have hl0 : l = [] := List.length_eq_zero.mp (Nat.le_zero.mp hl)
    subst hl0
    rw [batchesOf.eq_def] at hc
    simp at hc
  | succ n ih =>
    intro l hl c hc
    by_cases hl0 : l = []
    · subst hl0
      rw [batchesOf.eq_def] at hc
      simp at hc
    · have hpos : 0 < l.length := List.length_pos.mpr hl0
      have hbs : 0 < batch_size := by simp [batch_size]
      rw [batchesOf.eq_def, dif_neg hl0] at hc
      rcases List.mem_cons.mp hc with h1 | h2
      · subst h1
        exact List.length_take_le _ _
      · exact ih (l.drop batch_size) (by rw [List.length_drop]; omega) c h2

lemma fetchFrom_shift (oracle : Nat → Nat → FetchOutcome) :
    ∀ (n : Nat) (l : List String) (i : Nat), l.length - i ≤ n →
      fetchFrom oracle l (i + batch_size) =
        fetchFrom (fun b => oracle (b + 1)) (l.drop batch_size) i := by
  have hbs : 0 < batch_size := by simp [batch_size]
  intro n
  induction n with
  | zero =>
    intro l i hn
    conv_lhs => rw [fetchFrom.eq_def]
    conv_rhs => rw [fetchFrom.eq_def]
    rw [dif_neg (show ¬ i + batch_size < l.length by omega),
      dif_neg (show ¬ i < (l.drop batch_size).length by rw [List.length_drop]; omega)]
  | succ n ih =>
    intro l i hn
    conv_lhs => rw [fetchFrom.eq_def]
    conv_rhs => rw [fetchFrom.eq_def]
    by_cases hc : i + batch_size < l.length
    · rw [dif_pos hc,
        dif_pos (show i < (l.drop batch_size).length by rw [List.length_drop]; omega)]
      have hdiv : (i + batch_size) / batch_size = i / batch_size + 1 :=
        Nat.add_div_right i hbs
      have hrec := ih l (i + batch_size) (by omega)
      simp only [hdiv, hrec]
    · rw [dif_neg hc,
        dif_neg (show ¬ i < (l.drop batch_size).length by rw [List.length_drop]; omega)]

lemma fetch_records_flatten : ∀ (n : Nat) (oracle : Nat → Nat → FetchOutcome)
    (l : List String), l.length ≤ n →
    (fetch_sequence_data oracle l).records =
      ((List.range (batchesOf l).length).map
        (fun b => (fetchBatch (oracle b)).records)).flatten := by
  intro n
  induction n with
  | zero =>
    intro oracle l hl
    have hl0 : l = [] := List.length_eq_zero.mp (Nat.le_zero.mp hl)
    subst hl0
    show (fetchFrom oracle [] 0).records = _
    rw [fetchFrom.eq_def, batchesOf.eq_def]
    simp
  | succ n ih =>
    intro oracle l hl
    by_cases hl0 : l = []
    · subst hl0
      show (fetchFrom oracle [] 0).records = _
      rw [fetchFrom.eq_def, batchesOf.eq_def]
      simp
    · have hpos : 0 < l.length := List.length_pos.mpr hl0
      have hbs : 0 < batch_size := by simp [batch_size]
      show (fetchFrom oracle l 0).records = _
      rw [fetchFrom.eq_def, dif_pos hpos]
      have hshift : fetchFrom oracle l (0 + batch_size) =
          fetchFrom (fun b => oracle (b + 1)) (l.drop batch_size) 0 :=
        fetchFrom_shift oracle l.length l 0 (by omega)
      have hih := ih (fun b => oracle (b + 1)) (l.drop batch_size)
        (by rw [List.length_drop]; omega)
      rw [show batchesOf l = l.take batch_size :: batchesOf (l.drop batch_size) from by
        rw [batchesOf.eq_def, dif_neg hl0]]
      simp only [Nat.zero_div, List.length_cons, List.range_succ_eq_map, List.map_cons,
        List.map_map, List.flatten_cons, hshift]
      rw [show (fetch_sequence_data (fun b => oracle (b + 1)) (l.drop batch_size)).records =
          (fetchFrom (fun b => oracle (b + 1)) (l.drop batch_size) 0).records from rfl] at hih
      rw [hih]
      rw [show ((fun b => (fetchBatch (oracle b)).records) ∘ Nat.succ) =
          (fun b => (fetchBatch (oracle (b + 1))).records) from funext (fun b => rfl)]

lemma fetchBatch_allfail_empty (orc : Nat → FetchOutcome)
    (h : ∀ a, a < 3 → orc a = FetchOutcome.failAfter []) :
    (fetchBatch orc).records = [] := by
  have h0 := h 0 (by omega)
  have h1 := h 1 (by omega)
  have h2 := h 2 (by omega)
  simp [fetchBatch, fetchBatchGo, h0, h1, h2]

/-- C6 (amended): the identifiers are processed as the consecutive slices
`id_list[i:i+50]` (their concatenation restores the list and each has at
most 50 elements); the records of a run are the concatenation, in order,
of the per-batch contributions, so a failed batch never blocks later
batches; and a batch whose 3 attempts all fail contributes zero records
provided each failing attempt raises before parsing any record.  (Without
that proviso a fully failed batch still contributes the partial prefixes
parsed before each raise — see the counterexample.) -/
theorem C6_batching (oracle : Nat → Nat → FetchOutcome) (ids : List String) (b : Nat)
    (hb : ∀ a, a < 3 → oracle b a = FetchOutcome.failAfter []) :
    (batchesOf ids).flatten = ids
  ∧ ((batchesOf ids).all (fun c => decide (c.length ≤ batch_size))) = true
  ∧ (fetch_sequence_data oracle ids).records =
      ((List.range (batchesOf ids).length).map
        (fun i => (fetchBatch (oracle i)).records)).flatten
  ∧ (fetchBatch (oracle b)).records = [] := by
  refine ⟨batchesOf_flatten ids.length ids (le_refl _), ?_, ?_, ?_⟩
  · rw [List.all_eq_true]
    intro c hc
    simpa using batchesOf_sizes ids.length ids (le_refl _) c hc
  · exact fetch_records_flatten ids.length oracle ids (le_refl _)
  · exact fetchBatch_allfail_empty (oracle b) hb

/-- C6, witness: instantiated on a one-identifier list with a fetch oracle
whose every attempt fails before parsing anything. -/
theorem C6_witness :
    (batchesOf ["id1"]).flatten = ["id1"]
  ∧ ((batchesOf ["id1"]).all (fun c => decide (c.length ≤ batch_size))) = true
  ∧ (fetch_sequence_data allFailFetch ["id1"]).records =
      ((List.range (batchesOf ["id1"]).length).map
        (fun i => (fetchBatch (allFailFetch i)).records)).flatten
  ∧ (fetchBatch (allFailFetch 0)).records = [] :=
  C6_batching allFailFetch ["id1"] 0 (fun _ _ => rfl)

/-- C6, counterexample: every attempt of the single batch fails (after
parsing one record each time), yet the batch contributes 3 records, not
zero — the partial prefixes parsed before each raise stay appended. -/
theorem C6_counterexample :
    ((List.range 3).all
        (fun a => decide (cFailOracle 0 a = FetchOutcome.failAfter [recN]))) = true
  ∧ (fetch_sequence_data cFailOracle ["id1"]).records.length = 3 := by
  constructor
  · decide
  · show (fetchFrom cFailOracle ["id1"] 0).records.length = 3
    rw [fetchFrom.eq_def]
    norm_num
    rw [fetchFrom.eq_def]
    simp [batch_size, fetchBatch, fetchBatchGo, cFailOracle]
